import Mathlib

/-!
Verification development for the ForceFlow UK telemetry ingestion and tempo
scoring pipeline.

The definitions below are a shallow embedding of the JavaScript source:

* `OpenSkyService` (the OAuth2-enabled version in `src/db/migrate.js`):
  `isMilitaryAircraft`, `getCountryCode`, `safeFloat`, `safeInteger`,
  `fetchStates`, `processStates`, `ingestData`;
* the `/calculate` handler of the tempo routes: count queries, sub-score and
  composite-score formulas, and the hourly upsert into `tempo_scores`;
* the durable-store tables `assets`, `flight_events`, `tempo_scores` (and the
  tables read by the tempo calculation) from `src/db/schema.sql`, modelled as
  lists of rows with the schema's uniqueness constraints as predicates.

JavaScript numbers are modelled as rationals (`ℚ`); heterogeneous feed fields
are modelled by `JSVal` (null / number / string / boolean) with JavaScript
truthiness.  Wall-clock time (`Date.now()`, in milliseconds) is passed as an
explicit argument; timestamps are modelled as integers, since every value the
pipeline feeds through them (the feed's Unix-second last-contact times and
`Date.now()` milliseconds) is an integer.  Database writes performed inside one per-record
transaction take effect only when the transaction commits: a rolled-back
record returns the original store.  String upper-casing is modelled on ASCII
(the hex codes, callsigns and country names the service handles are ASCII).
-/

/-- A JavaScript value as it can appear in an OpenSky state-vector field:
`null`/`undefined`, a finite number, a string, or a boolean. -/
inductive JSVal where
  | null : JSVal
  | num : ℚ → JSVal
  | str : String → JSVal
  | boolean : Bool → JSVal
deriving DecidableEq, Repr

/-- JavaScript truthiness: `null`, `0` and `""` are falsy (NaN is not
modelled). -/
def JSVal.truthy : JSVal → Bool
  | .null => false
  | .num q => decide (q ≠ 0)
  | .str s => decide (s ≠ "")
  | .boolean b => b

/-- Truthiness of an optional string (`null`/`undefined` and `""` are
falsy). -/
def strTruthy : Option String → Bool
  | none => false
  | some s => decide (s ≠ "")

/-- Model of `String.prototype.toUpperCase` on the ASCII strings the service
handles. -/
def jsToUpperCase (s : String) : String := String.mk (s.data.map Char.toUpper)

/-- Character-list prefix test. -/
def charsStartWith : List Char → List Char → Bool
  | [], _ => true
  | _ :: _, [] => false
  | a :: ps, b :: ss => a == b && charsStartWith ps ss

/-- Model of an anchored regex test `/^pat/.test(s)`: `s` starts with the
literal `pat`. -/
def regexStartTest (pat s : String) : Bool := charsStartWith pat.data s.data

/-- Model of `String.prototype.trim`: strip whitespace from both ends. -/
def jsTrim (s : String) : String :=
  String.mk (((s.data.dropWhile Char.isWhitespace).reverse.dropWhile Char.isWhitespace).reverse)

/-- Digits-to-number accumulator used by the `parseFloat` model. -/
def digitsToNat (ds : List Char) : Nat :=
  ds.foldl (fun n c => n * 10 + (c.toNat - 48)) 0

/-- Model of JavaScript `parseFloat`: skip leading whitespace, read an
optional sign, then the longest `digits[.digits]` prefix; `NaN` (here `none`)
when no digit is found.  Exponent notation is not modelled: the feed and the
service never use it. -/
def jsParseFloat (s : String) : Option ℚ :=
  let cs := s.data.dropWhile Char.isWhitespace
  let signAndRest : ℚ × List Char :=
    match cs with
    | '-' :: rest => (-1, rest)
    | '+' :: rest => (1, rest)
    | _ => (1, cs)
  let intDs := signAndRest.2.takeWhile Char.isDigit
  let rest1 := signAndRest.2.dropWhile Char.isDigit
  match rest1 with
  | '.' :: rest2 =>
    let fracDs := rest2.takeWhile Char.isDigit
    if intDs.isEmpty ∧ fracDs.isEmpty then none
    else
      some (signAndRest.1 *
        ((digitsToNat intDs : ℚ) + (digitsToNat fracDs : ℚ) / (10 : ℚ) ^ fracDs.length))
  | _ =>
    if intDs.isEmpty then none else some (signAndRest.1 * (digitsToNat intDs : ℚ))

/-- The `safeFloat` helper of the service: numbers pass through, strings are
parsed with `parseFloat` (`NaN` becomes `null`), everything else becomes
`null`. -/
def safeFloat : JSVal → Option ℚ
  | .null => none
  | .num q => some q
  | .str s => jsParseFloat s
  | .boolean _ => none

/-- `Math.round`: round half toward positive infinity. -/
def jsRound (q : ℚ) : Int := ⌊q + 1 / 2⌋

/-- The `safeInteger` helper of the service: like `safeFloat` but rounded with
`Math.round`. -/
def safeInteger : JSVal → Option Int
  | .null => none
  | .num q => some (jsRound q)
  | .str s => (jsParseFloat s).map jsRound
  | .boolean _ => none

/-- The `militaryPatterns` table: regexes `^43C`, `^400`, `^ADF8`, `^ADF9`,
each an anchored prefix test on the upper-cased hex code. -/
def militaryPatterns : List String := ["43C", "400", "ADF8", "ADF9"]

/-- The `militaryCallsigns` table: anchored prefix tests on the upper-cased
callsign. -/
def militaryCallsigns : List String :=
  ["RRR", "ASCOT", "KNIFE", "TARTAN", "RESCUE", "ROYAL"]

/-- `isMilitaryAircraft(hexCode, callsign)`: a truthy hex code whose
upper-casing matches one of `militaryPatterns`, or a truthy callsign whose
upper-casing matches one of `militaryCallsigns`. -/
def isMilitaryAircraft (hexCode callsign : Option String) : Bool :=
  (match hexCode with
   | some h =>
     decide (h ≠ "") &&
       militaryPatterns.any (fun p => regexStartTest p (jsToUpperCase h))
   | none => false) ||
  (match callsign with
   | some c =>
     decide (c ≠ "") &&
       militaryCallsigns.any (fun p => regexStartTest p (jsToUpperCase c))
   | none => false)

/-- The country-name to ISO-code lookup table of the service. -/
def countryCodeMap : List (String × String) :=
  [("United Kingdom", "GB"), ("Germany", "DE"), ("France", "FR"),
   ("Netherlands", "NL"), ("Belgium", "BE"), ("Switzerland", "CH"),
   ("Austria", "AT"), ("Italy", "IT"), ("Spain", "ES"), ("Poland", "PL"),
   ("Czech Republic", "CZ"), ("Slovakia", "SK"), ("Hungary", "HU"),
   ("Slovenia", "SI"), ("Croatia", "HR"), ("Serbia", "RS"),
   ("Bosnia and Herzegovina", "BA"), ("Montenegro", "ME"), ("Albania", "AL"),
   ("North Macedonia", "MK"), ("Bulgaria", "BG"), ("Romania", "RO"),
   ("Moldova", "MD"), ("Ukraine", "UA"), ("Belarus", "BY"),
   ("Lithuania", "LT"), ("Latvia", "LV"), ("Estonia", "EE"),
   ("Finland", "FI"), ("Sweden", "SE"), ("Norway", "NO"), ("Denmark", "DK"),
   ("Iceland", "IS"), ("Ireland", "IE"), ("Portugal", "PT"),
   ("Luxembourg", "LU"), ("Liechtenstein", "LI"), ("Malta", "MT"),
   ("Cyprus", "CY"), ("Greece", "GR"), ("Turkey", "TR"), ("Russia", "RU"),
   ("United States", "US"), ("Canada", "CA"), ("Mexico", "MX")]

/-- `getCountryCode(countryName)`: `null` stays `null`, a 2-character string
is upper-cased as-is, known names map through `countryCodeMap`, anything else
falls back to its first two characters upper-cased. -/
def getCountryCode : Option String → Option String
  | none => none
  | some s =>
    if s = "" then none
    else if s.data.length = 2 then some (jsToUpperCase s)
    else
      match (countryCodeMap.find? (fun p => p.1 == s)).map Prod.snd with
      | some code => some code
      | none => some (jsToUpperCase (String.mk (s.data.take 2)))

/-- The claim's reading of the classifier, written from the spec's words: the
upper-cased identifier starts with one of the military identifier prefixes, or
the upper-cased callsign starts with one of the military callsign prefixes,
either match being sufficient. -/
def isOfInterestSpec (identifier callsign : Option String) : Prop :=
  (∃ h, identifier = some h ∧
    ∃ p ∈ militaryPatterns, regexStartTest p (jsToUpperCase h) = true) ∨
  (∃ c, callsign = some c ∧
    ∃ p ∈ militaryCallsigns, regexStartTest p (jsToUpperCase c) = true)

/-- Helper for the classifier characterization: the truthiness guard on one
side of `isMilitaryAircraft` changes nothing, because no pattern in either
table is a prefix of the empty string. -/
theorem guardedMatch_iff (pats : List String) (hne : pats.any (fun p => regexStartTest p (jsToUpperCase "")) = false) (h : String) :
    (decide (h ≠ "") && pats.any (fun p => regexStartTest p (jsToUpperCase h))) = true ↔
      ∃ p ∈ pats, regexStartTest p (jsToUpperCase h) = true := by
  by_cases hh : h = ""
  · subst hh
    rw [show decide (("" : String) ≠ "") = false by decide, Bool.false_and]
    constructor
    · intro hfalse
      exact absurd hfalse (by simp)
    rintro ⟨p, hp, hpre⟩
    exfalso
    have hany : (pats.any fun p => regexStartTest p (jsToUpperCase "")) = true :=
      List.any_eq_true.mpr ⟨p, hp, hpre⟩
    rw [hne] at hany
    exact Bool.false_ne_true hany
  · simp [hh, List.any_eq_true]

/-- C5 — The classifier is a pure, deterministic function of
(identifier, callsign): it returns true exactly when the upper-cased
identifier starts with one of the military identifier prefixes or the
upper-cased callsign starts with one of the military callsign prefixes
(either match sufficient, matching case-insensitive); in particular
isMilitaryAircraft "43C123" null = true,
isMilitaryAircraft "AABBCC" "SPEEDBIRD123" = false, and
isMilitaryAircraft null "RRR4421" = true. -/
theorem classifier_prefix_characterization :
    (∀ hexCode callsign : Option String,
      isMilitaryAircraft hexCode callsign = true ↔ isOfInterestSpec hexCode callsign) ∧
    isMilitaryAircraft (some "43C123") none = true ∧
    isMilitaryAircraft (some "AABBCC") (some "SPEEDBIRD123") = false ∧
    isMilitaryAircraft none (some "RRR4421") = true := by
  refine ⟨fun hexCode callsign => ?_, by decide, by decide, by decide⟩
  unfold isMilitaryAircraft isOfInterestSpec
  rw [Bool.or_eq_true]
  cases hexCode with
  | none =>
    cases callsign with
    | none => simp
    | some c =>
      rw [guardedMatch_iff militaryCallsigns (by decide) c]
      simp
  | some h =>
    cases callsign with
    | none =>
      rw [guardedMatch_iff militaryPatterns (by decide) h]
      simp
    | some c =>
      rw [guardedMatch_iff militaryPatterns (by decide) h,
        guardedMatch_iff militaryCallsigns (by decide) c]
      constructor
      · rintro (⟨p, hp, hpre⟩ | ⟨p, hp, hpre⟩)
        · exact Or.inl ⟨h, rfl, p, hp, hpre⟩
        · exact Or.inr ⟨c, rfl, p, hp, hpre⟩
      · rintro (⟨h', hh, p, hp, hpre⟩ | ⟨c', hc, p, hp, hpre⟩)
        · cases Option.some.inj hh; exact Or.inl ⟨p, hp, hpre⟩
        · cases Option.some.inj hc; exact Or.inr ⟨p, hp, hpre⟩

/-! ## The durable store

Rows of the tables the pipeline touches, from `src/db/schema.sql`.  Ids are
modelled as naturals allocated by a counter; `NOW()` defaults are supplied by
the explicit clock argument.  Timestamps are milliseconds since the epoch. -/

/-- A row of `assets`: `code` is `UNIQUE NOT NULL`, `callsign` and
`country_code` are nullable. -/
structure Asset where
  id : Nat
  type : String
  code : String
  callsign : Option String
  country_code : Option String
  created_at : Int
  updated_at : Int
deriving DecidableEq, Repr

/-- A row of `flight_events`: `lat` and `lon` are `NOT NULL`, the kinematic
fields are nullable, and `UNIQUE (asset_id, ts)` holds. -/
structure FlightEvent where
  asset_id : Nat
  ts : Int
  lat : ℚ
  lon : ℚ
  alt : Option Int
  velocity : Option ℚ
  heading : Option ℚ
  vertical_rate : Option ℚ
  on_ground : Bool
deriving DecidableEq, Repr

/-- A row of `ship_events` (only the column read by the tempo calculation). -/
structure ShipEvent where
  asset_id : Nat
  ts : Int
deriving DecidableEq, Repr

/-- A row of `notams` (only the columns read by the tempo calculation). -/
structure Notam where
  ts_start : Int
  ts_end : Option Int
deriving DecidableEq, Repr

/-- A row of `exercises` (only the columns read by the tempo calculation). -/
structure Exercise where
  ts_start : Int
  ts_end : Option Int
deriving DecidableEq, Repr

/-- The `drivers` JSONB object stored with a tempo score: the four category
sub-scores, each rounded by `toFixed(2)`. -/
structure TempoDrivers where
  flight_score : ℚ
  ship_score : ℚ
  notam_score : ℚ
  exercise_score : ℚ
deriving DecidableEq, Repr

/-- A row of `tempo_scores`: `ts` (the hour bucket) is the primary key. -/
structure TempoRow where
  ts : Int
  score : ℚ
  drivers : TempoDrivers
  flight_count : Nat
  ship_count : Nat
  notam_count : Nat
  exercise_count : Nat
deriving DecidableEq, Repr

/-- The durable store. -/
structure DB where
  assets : List Asset
  nextAssetId : Nat
  flight_events : List FlightEvent
  ship_events : List ShipEvent
  notams : List Notam
  exercises : List Exercise
  tempo_scores : List TempoRow
deriving DecidableEq, Repr

/-- An OpenSky state vector as destructured by `processStates`.  The five
trailing feed-internal fields (sensors, geo altitude, squawk, spi, position
source) are destructured but never used by the service, so they are omitted.
Field types follow what the service can observe: identifier, callsign and
origin country are strings or null; the contact times are numbers or null;
the kinematic fields go through `safeFloat`/`safeInteger` and may be any
JavaScript value. -/
structure RawState where
  icao24 : Option String := none
  callsign : Option String := none
  originCountry : Option String := none
  timePosition : Option Int := none
  lastContact : Option Int := none
  longitude : JSVal := .null
  latitude : JSVal := .null
  baroAltitude : JSVal := .null
  onGround : Option Bool := none
  velocity : JSVal := .null
  trueTrack : JSVal := .null
  verticalRate : JSVal := .null
deriving DecidableEq, Repr

/-! ## Asset resolution and the position-event upsert -/

/-- The find-or-create asset block of `processStates`: look the asset up by
its upper-cased code; if absent insert a new `aircraft` asset with the
trimmed callsign (empty after trimming becomes null) and the converted
country code; if present and the callsign is truthy with a truthy trimming,
update the stored callsign to the trimmed value and bump `updated_at`.
Returns the store and the resolved asset id. -/
def resolveAsset (now : Int) (db : DB) (code : String) (callsign : Option String)
    (countryCode : Option String) : DB × Nat :=
  match db.assets.find? (fun a => a.code == code) with
  | none =>
    ({ db with
        assets := db.assets ++
          [{ id := db.nextAssetId, type := "aircraft", code := code,
             callsign := match callsign with
               | some c => if jsTrim c = "" then none else some (jsTrim c)
               | none => none,
             country_code := countryCode,
             created_at := now, updated_at := now }],
        nextAssetId := db.nextAssetId + 1 },
      db.nextAssetId)
  | some a =>
    match callsign with
    | some c =>
      if c ≠ "" ∧ jsTrim c ≠ "" then
        ({ db with
            assets := db.assets.map (fun b =>
              if b.id = a.id then { b with callsign := some (jsTrim c), updated_at := now }
              else b) },
          a.id)
      else (db, a.id)
    | none => (db, a.id)

/-- The conflict key of `flight_events`: `UNIQUE (asset_id, ts)`. -/
def eventKey (e : FlightEvent) : Nat × Int := (e.asset_id, e.ts)

/-- The `INSERT ... ON CONFLICT (asset_id, ts) DO UPDATE` statement on
`flight_events`: on a key collision every kinematic column (lat, lon, alt,
velocity, heading, vertical_rate, on_ground) is overwritten with the excluded
row's values; otherwise the row is appended. -/
def upsertEvList (l : List FlightEvent) (ev : FlightEvent) : List FlightEvent :=
  if l.any (fun e => decide (eventKey e = eventKey ev)) then
    l.map (fun e =>
      if eventKey e = eventKey ev then
        { e with lat := ev.lat, lon := ev.lon, alt := ev.alt, velocity := ev.velocity,
                 heading := ev.heading, vertical_rate := ev.vertical_rate,
                 on_ground := ev.on_ground }
      else e)
  else l ++ [ev]

/-! ## Per-record processing -/

/-- How one state vector's transaction ended. -/
inductive RecordOutcome where
  | skippedNoPosition
  | skippedCivilian
  | rejectedBadTimestamp
  | rejectedUnreasonableTimestamp
  | processed
  | failed
deriving DecidableEq, Repr

/-- The guard `!lastContact || lastContact <= 0`: missing or non-positive
last-contact time (`0` is falsy, so it is rejected by either disjunct). -/
def lastContactInvalid : Option Int → Bool
  | none => true
  | some lc => decide (lc ≤ 0)

/-- The freshness guard on the event timestamp (milliseconds): more than one
minute in the future or more than 24 hours in the past of the ingestion
wall clock. -/
def timestampUnreasonable (tsMs now : Int) : Bool :=
  decide (tsMs > now + 60000) || decide (tsMs < now - 86400000)

/-- One iteration of the `processStates` loop: one state vector inside its
own transaction.  A rolled-back transaction (skip, validation failure, or
store error) returns the original store; a committed one returns the store
with the asset resolution and the event upsert applied.  The store error
modelled is the `NOT NULL` violation on `lat`/`lon` that a truthy but
unparsable coordinate produces. -/
def processState (now : Int) (db : DB) (st : RawState) : DB × RecordOutcome :=
  if (st.latitude.truthy && st.longitude.truthy && strTruthy st.icao24) = false then
    (db, .skippedNoPosition)
  else if isMilitaryAircraft st.icao24 st.callsign = false then
    (db, .skippedCivilian)
  else
    let countryCode := getCountryCode st.originCountry
    let resolved := resolveAsset now db (jsToUpperCase (st.icao24.getD "")) st.callsign countryCode
    if lastContactInvalid st.lastContact = true then
      (db, .rejectedBadTimestamp)
    else
      let timestampMs := (st.lastContact.getD 0) * 1000
      if timestampUnreasonable timestampMs now = true then
        (db, .rejectedUnreasonableTimestamp)
      else
        match safeFloat st.latitude, safeFloat st.longitude with
        | some la, some lo =>
          ({ resolved.1 with
              flight_events := upsertEvList resolved.1.flight_events
                { asset_id := resolved.2, ts := timestampMs, lat := la, lon := lo,
                  alt := safeInteger st.baroAltitude, velocity := safeFloat st.velocity,
                  heading := safeFloat st.trueTrack,
                  vertical_rate := safeFloat st.verticalRate,
                  on_ground := st.onGround.getD false } },
            .processed)
        | _, _ => (db, .failed)

/-- Counters reported by one `processStates` run. -/
structure ProcessResult where
  db : DB
  processed : Nat
  militaryCount : Nat
  errors : Nat
deriving DecidableEq, Repr

/-- `militaryCount` is incremented before timestamp validation and the event
write, so every outcome past the classifier counts as military. -/
def outcomeCountsMilitary : RecordOutcome → Bool
  | .skippedNoPosition => false
  | .skippedCivilian => false
  | _ => true

/-- The `processStates` loop: each state vector in its own transaction, in
upstream delivery order; a failed record is logged and the loop continues
with the next one. -/
def processStates (now : Int) (db : DB) (states : List RawState) : ProcessResult :=
  match states with
  | [] => { db := db, processed := 0, militaryCount := 0, errors := 0 }
  | st :: rest =>
    let step := processState now db st
    let r := processStates now step.1 rest
    { db := r.db,
      processed := (if step.2 = .processed then 1 else 0) + r.processed,
      militaryCount := (if outcomeCountsMilitary step.2 then 1 else 0) + r.militaryCount,
      errors := (if step.2 = .failed then 1 else 0) + r.errors }

/-! ## Fetch and the ingestion cycle -/

/-- What the upstream request can come back with: a 2xx payload (whose
`states` field may be absent), a non-2xx status, no response at all, or a
request setup error. -/
inductive UpstreamResponse where
  | success (states : Option (List RawState))
  | httpError (status : Nat)
  | noResponse
  | requestSetupError
deriving DecidableEq, Repr

/-- What `fetchStates` throws: the axios error carrying the HTTP status, or a
transport-level error with no response. -/
inductive FetchError where
  | http (status : Nat)
  | transport
deriving DecidableEq, Repr

/-- The cross-cycle mutable state of the service instance. -/
structure ServiceState where
  isRunning : Bool
  lastRun : Option Int
  accessToken : Option String
  tokenExpiry : Option Int
  db : DB
deriving DecidableEq, Repr

/-- The `fetchStates` method, as a function of the upstream response: a
well-formed payload without a `states` field yields `[]`; a payload with
states yields them; a 401 clears the cached token and re-throws; every other
failure — including a 429, which is logged as a rate-limit warning — is
re-thrown to the caller. -/
def fetchStates (svc : ServiceState) (resp : UpstreamResponse) :
    Except FetchError (List RawState) × ServiceState :=
  match resp with
  | .success none => (.ok [], svc)
  | .success (some states) => (.ok states, svc)
  | .httpError status =>
    if status = 401 then
      (.error (.http 401), { svc with accessToken := none, tokenExpiry := none })
    else
      (.error (.http status), svc)
  | .noResponse => (.error .transport, svc)
  | .requestSetupError => (.error .transport, svc)

/-- The `ingestData` cycle: a no-op when a cycle is already running;
otherwise set the running flag, fetch and process, record `lastRun` only on
success, catch any error, and clear the running flag on every exit path
(the `finally` block). -/
def ingestData (svc : ServiceState) (resp : UpstreamResponse) (now : Int) : ServiceState :=
  if svc.isRunning = true then svc
  else
    let fetched := fetchStates { svc with isRunning := true } resp
    match fetched.1 with
    | .ok states =>
      let r := processStates now fetched.2.db states
      { fetched.2 with db := r.db, lastRun := some now, isRunning := false }
    | .error _ => { fetched.2 with isRunning := false }

/-! ## The tempo calculation -/

/-- The flight sub-score: baseline 50 flights per hour. -/
def flightScore (flightCount : Nat) : ℚ :=
  max 0 (((flightCount : ℚ) - 50) / 50 * 100)

/-- The ship sub-score: baseline 20. -/
def shipScore (shipCount : Nat) : ℚ :=
  max 0 (((shipCount : ℚ) - 20) / 20 * 100)

/-- The NOTAM sub-score: baseline 10. -/
def notamScore (notamCount : Nat) : ℚ :=
  max 0 (((notamCount : ℚ) - 10) / 10 * 100)

/-- The exercise sub-score: baseline 2. -/
def exerciseScore (exerciseCount : Nat) : ℚ :=
  max 0 (((exerciseCount : ℚ) - 2) / 2 * 100)

/-- The weighted composite score with its flat baseline offset of 50, capped
at 100. -/
def compositeScore (f s n e : Nat) : ℚ :=
  min 100
    (flightScore f * 0.4 + shipScore s * 0.2 + notamScore n * 0.3 +
      exerciseScore e * 0.1 + 50)

/-- `Number.prototype.toFixed(2)` followed by the `NUMERIC(5,2)` column: the
value rounded to two decimals, ties toward positive infinity. -/
def toFixed2 (q : ℚ) : ℚ := (round (q * 100) : ℚ) / 100

/-- The `INSERT ... ON CONFLICT (ts) DO UPDATE` statement on `tempo_scores`:
on a key collision score, drivers and every count column are overwritten
(the whole row apart from the key), otherwise the row is appended. -/
def upsertTempoList (l : List TempoRow) (row : TempoRow) : List TempoRow :=
  if l.any (fun t => decide (t.ts = row.ts)) then
    l.map (fun t => if t.ts = row.ts then row else t)
  else l ++ [row]

/-- The row the `/calculate` handler builds for the `tempo_scores` upsert:
count events per category over the fixed lookback windows (flights one hour,
ships 72 hours, NOTAMs and exercises by interval overlap with now), score
them, and key the result by the truncated current hour. -/
def tempoRowOf (db : DB) (now : Int) : TempoRow :=
  let flightCount :=
    (db.flight_events.filter (fun e => decide (now - 3600000 < e.ts))).length
  let shipCount :=
    (db.ship_events.filter (fun e => decide (now - 259200000 < e.ts))).length
  let notamCount :=
    (db.notams.filter (fun n =>
      decide (n.ts_start ≤ now) &&
        match n.ts_end with
        | none => true
        | some te => decide (now ≤ te))).length
  let exerciseCount :=
    (db.exercises.filter (fun x =>
      decide (x.ts_start ≤ now) &&
        match x.ts_end with
        | none => true
        | some te => decide (now ≤ te))).length
  { ts := Int.fdiv now 3600000 * 3600000,
    score := toFixed2 (compositeScore flightCount shipCount notamCount exerciseCount),
    drivers :=
      { flight_score := toFixed2 (flightScore flightCount),
        ship_score := toFixed2 (shipScore shipCount),
        notam_score := toFixed2 (notamScore notamCount),
        exercise_score := toFixed2 (exerciseScore exerciseCount) },
    flight_count := flightCount, ship_count := shipCount,
    notam_count := notamCount, exercise_count := exerciseCount }

/-- The `/calculate` handler: build the hourly row and upsert it into
`tempo_scores`. -/
def calculateTempo (db : DB) (now : Int) : DB :=
  { db with tempo_scores := upsertTempoList db.tempo_scores (tempoRowOf db now) }

/-! ## Helper lemmas about the keyed upserts -/

/-- Filtering a list on a key value counts the key's occurrences among the
mapped keys. -/
theorem length_filter_key {α κ : Type} [DecidableEq κ] (key : α → κ) (l : List α) (k : κ) :
    (l.filter (fun a => decide (key a = k))).length = (l.map key).count k := by
  induction l with
  | nil => simp
  | cons a l ih =>
    by_cases h : key a = k
    · simp [List.filter_cons, h, List.count_cons, ih]
    · simp [List.filter_cons, h, List.count_cons, ih]

/-- Overwriting every kinematic field of a row whose key already agrees
yields the new row. -/
theorem overwriteEv_eq {e ev : FlightEvent} (h : eventKey e = eventKey ev) :
    { e with lat := ev.lat, lon := ev.lon, alt := ev.alt, velocity := ev.velocity,
             heading := ev.heading, vertical_rate := ev.vertical_rate,
             on_ground := ev.on_ground } = ev := by
  cases e; cases ev
  simp only [eventKey, Prod.mk.injEq] at h
  simp_all

/-- On a key collision the upsert is the overwrite map. -/
theorem upsertEvList_of_any_true {l : List FlightEvent} {ev : FlightEvent}
    (hany : l.any (fun e => decide (eventKey e = eventKey ev)) = true) :
    upsertEvList l ev =
      l.map (fun e =>
        if eventKey e = eventKey ev then
          { e with lat := ev.lat, lon := ev.lon, alt := ev.alt, velocity := ev.velocity,
                   heading := ev.heading, vertical_rate := ev.vertical_rate,
                   on_ground := ev.on_ground }
        else e) := by
  unfold upsertEvList
  rw [if_pos hany]

/-- Without a key collision the upsert is an append. -/
theorem upsertEvList_of_any_false {l : List FlightEvent} {ev : FlightEvent}
    (hany : l.any (fun e => decide (eventKey e = eventKey ev)) = false) :
    upsertEvList l ev = l ++ [ev] := by
  unfold upsertEvList
  rw [if_neg (by simp [hany])]

/-- Every row of the upsert result that carries the upserted key is the
upserted row. -/
theorem upsertEvList_key_eq {l : List FlightEvent} {ev : FlightEvent} :
    ∀ e ∈ upsertEvList l ev, eventKey e = eventKey ev → e = ev := by
  intro e he hk
  rcases hany : l.any (fun e => decide (eventKey e = eventKey ev)) with _ | _
  · rw [upsertEvList_of_any_false hany] at he
    rcases List.mem_append.mp he with h1 | h2
    · exfalso
      have hc : l.any (fun e => decide (eventKey e = eventKey ev)) = true :=
        List.any_eq_true.mpr ⟨e, h1, by simp [hk]⟩
      rw [hany] at hc
      exact Bool.false_ne_true hc
    · simpa using h2
  · rw [upsertEvList_of_any_true hany] at he
    obtain ⟨x, hx, hfx⟩ := List.mem_map.mp he
    by_cases hkey : eventKey x = eventKey ev
    · rw [if_pos hkey] at hfx
      rw [← hfx]
      exact overwriteEv_eq hkey
    · rw [if_neg hkey] at hfx
      subst hfx
      exact absurd hk hkey

/-- The upserted row is present in the upsert result. -/
theorem mem_upsertEvList_self (l : List FlightEvent) (ev : FlightEvent) :
    ev ∈ upsertEvList l ev := by
  rcases hany : l.any (fun e => decide (eventKey e = eventKey ev)) with _ | _
  · rw [upsertEvList_of_any_false hany]
    exact List.mem_append.mpr (Or.inr (List.mem_singleton.mpr rfl))
  · rw [upsertEvList_of_any_true hany]
    obtain ⟨x, hx, hkx⟩ := List.any_eq_true.mp hany
    refine List.mem_map.mpr ⟨x, hx, ?_⟩
    rw [if_pos (by simpa using hkx)]
    exact overwriteEv_eq (by simpa using hkx)

/-- The upsert either preserves the key multiset (collision) or appends a key
that was absent. -/
theorem upsertEvList_map_key (l : List FlightEvent) (ev : FlightEvent) :
    (upsertEvList l ev).map eventKey = l.map eventKey ∨
      ((upsertEvList l ev).map eventKey = l.map eventKey ++ [eventKey ev] ∧
        eventKey ev ∉ l.map eventKey) := by
  rcases hany : l.any (fun e => decide (eventKey e = eventKey ev)) with _ | _
  · right
    rw [upsertEvList_of_any_false hany]
    refine ⟨by simp, ?_⟩
    intro hmem
    obtain ⟨x, hx, hkx⟩ := List.mem_map.mp hmem
    have hc : l.any (fun e => decide (eventKey e = eventKey ev)) = true :=
      List.any_eq_true.mpr ⟨x, hx, by simp [hkx]⟩
    rw [hany] at hc
    exact Bool.false_ne_true hc
  · left
    rw [upsertEvList_of_any_true hany, List.map_map]
    refine List.map_congr_left ?_
    intro a _
    by_cases hk : eventKey a = eventKey ev
    · simp only [Function.comp_apply, if_pos hk, overwriteEv_eq hk]
      exact hk.symm
    · simp only [Function.comp_apply, if_neg hk]

/-- The upsert preserves key uniqueness. -/
theorem upsertEvList_nodup {l : List FlightEvent} (ev : FlightEvent)
    (h : (l.map eventKey).Nodup) : ((upsertEvList l ev).map eventKey).Nodup := by
  rcases upsertEvList_map_key l ev with heq | ⟨heq, hnot⟩
  · rw [heq]; exact h
  · rw [heq]
    rw [List.nodup_append]
    exact ⟨h, List.nodup_singleton _, by
      intro a ha hb
      rw [List.mem_singleton] at hb
      exact hnot (hb ▸ ha)⟩

/-- Upserting the same row twice is the same as upserting it once. -/
theorem upsertEvList_idem (l : List FlightEvent) (ev : FlightEvent) :
    upsertEvList (upsertEvList l ev) ev = upsertEvList l ev := by
  have hany : (upsertEvList l ev).any (fun e => decide (eventKey e = eventKey ev)) = true :=
    List.any_eq_true.mpr ⟨ev, mem_upsertEvList_self l ev, by simp⟩
  rw [upsertEvList_of_any_true hany]
  have : ∀ e ∈ upsertEvList l ev,
      (if eventKey e = eventKey ev then
        { e with lat := ev.lat, lon := ev.lon, alt := ev.alt, velocity := ev.velocity,
                 heading := ev.heading, vertical_rate := ev.vertical_rate,
                 on_ground := ev.on_ground }
      else e) = e := by
    intro e he
    by_cases hk : eventKey e = eventKey ev
    · rw [if_pos hk, overwriteEv_eq hk, upsertEvList_key_eq e he hk]
    · rw [if_neg hk]
  rw [List.map_congr_left this]
  exact List.map_id' (upsertEvList l ev)

/-- On a key collision the upsert does not change the number of rows. -/
theorem upsertEvList_length_of_collision {l : List FlightEvent} {ev : FlightEvent}
    (h : ∃ e ∈ l, eventKey e = eventKey ev) :
    (upsertEvList l ev).length = l.length := by
  obtain ⟨e, he, hk⟩ := h
  have hany : l.any (fun e => decide (eventKey e = eventKey ev)) = true :=
    List.any_eq_true.mpr ⟨e, he, by simp [hk]⟩
  rw [upsertEvList_of_any_true hany, List.length_map]

/-- On a key collision the tempo upsert replaces the matching row. -/
theorem upsertTempoList_of_any_true {l : List TempoRow} {row : TempoRow}
    (hany : l.any (fun t => decide (t.ts = row.ts)) = true) :
    upsertTempoList l row = l.map (fun t => if t.ts = row.ts then row else t) := by
  unfold upsertTempoList
  rw [if_pos hany]

/-- Without a key collision the tempo upsert is an append. -/
theorem upsertTempoList_of_any_false {l : List TempoRow} {row : TempoRow}
    (hany : l.any (fun t => decide (t.ts = row.ts)) = false) :
    upsertTempoList l row = l ++ [row] := by
  unfold upsertTempoList
  rw [if_neg (by simp [hany])]

/-- Every row of the tempo upsert result that carries the upserted hour is
the upserted row. -/
theorem upsertTempoList_ts_eq {l : List TempoRow} {row : TempoRow} :
    ∀ t ∈ upsertTempoList l row, t.ts = row.ts → t = row := by
  intro t ht hk
  rcases hany : l.any (fun t => decide (t.ts = row.ts)) with _ | _
  · rw [upsertTempoList_of_any_false hany] at ht
    rcases List.mem_append.mp ht with h1 | h2
    · exfalso
      have hc : l.any (fun t => decide (t.ts = row.ts)) = true :=
        List.any_eq_true.mpr ⟨t, h1, by simp [hk]⟩
      rw [hany] at hc
      exact Bool.false_ne_true hc
    · simpa using h2
  · rw [upsertTempoList_of_any_true hany] at ht
    obtain ⟨x, hx, hfx⟩ := List.mem_map.mp ht
    by_cases hkey : x.ts = row.ts
    · rw [if_pos hkey] at hfx
      exact hfx.symm
    · rw [if_neg hkey] at hfx
      subst hfx
      exact absurd hk hkey

/-- The upserted tempo row is present in the result. -/
theorem mem_upsertTempoList_self (l : List TempoRow) (row : TempoRow) :
    row ∈ upsertTempoList l row := by
  rcases hany : l.any (fun t => decide (t.ts = row.ts)) with _ | _
  · rw [upsertTempoList_of_any_false hany]
    exact List.mem_append.mpr (Or.inr (List.mem_singleton.mpr rfl))
  · rw [upsertTempoList_of_any_true hany]
    obtain ⟨x, hx, hkx⟩ := List.any_eq_true.mp hany
    exact List.mem_map.mpr ⟨x, hx, by rw [if_pos (by simpa using hkx)]⟩

/-- The tempo upsert either preserves the key list or appends an absent
key. -/
theorem upsertTempoList_map_ts (l : List TempoRow) (row : TempoRow) :
    (upsertTempoList l row).map TempoRow.ts = l.map TempoRow.ts ∨
      ((upsertTempoList l row).map TempoRow.ts = l.map TempoRow.ts ++ [row.ts] ∧
        row.ts ∉ l.map TempoRow.ts) := by
  rcases hany : l.any (fun t => decide (t.ts = row.ts)) with _ | _
  · right
    rw [upsertTempoList_of_any_false hany]
    refine ⟨by simp, ?_⟩
    intro hmem
    obtain ⟨x, hx, hkx⟩ := List.mem_map.mp hmem
    have hc : l.any (fun t => decide (t.ts = row.ts)) = true :=
      List.any_eq_true.mpr ⟨x, hx, by simp [hkx]⟩
    rw [hany] at hc
    exact Bool.false_ne_true hc
  · left
    rw [upsertTempoList_of_any_true hany, List.map_map]
    refine List.map_congr_left ?_
    intro a _
    by_cases hk : a.ts = row.ts
    · simp only [Function.comp_apply, if_pos hk]
      exact hk.symm
    · simp only [Function.comp_apply, if_neg hk]

/-- The tempo upsert preserves hour-bucket uniqueness. -/
theorem upsertTempoList_nodup {l : List TempoRow} (row : TempoRow)
    (h : (l.map TempoRow.ts).Nodup) :
    ((upsertTempoList l row).map TempoRow.ts).Nodup := by
  rcases upsertTempoList_map_ts l row with heq | ⟨heq, hnot⟩
  · rw [heq]; exact h
  · rw [heq, List.nodup_append]
    exact ⟨h, List.nodup_singleton _, by
      intro a ha hb
      rw [List.mem_singleton] at hb
      exact hnot (hb ▸ ha)⟩

/-- Upserting the same tempo row twice is the same as upserting it once. -/
theorem upsertTempoList_idem (l : List TempoRow) (row : TempoRow) :
    upsertTempoList (upsertTempoList l row) row = upsertTempoList l row := by
  have hany : (upsertTempoList l row).any (fun t => decide (t.ts = row.ts)) = true :=
    List.any_eq_true.mpr ⟨row, mem_upsertTempoList_self l row, by simp⟩
  rw [upsertTempoList_of_any_true hany]
  have hfix : ∀ t ∈ upsertTempoList l row, (if t.ts = row.ts then row else t) = t := by
    intro t ht
    by_cases hk : t.ts = row.ts
    · rw [if_pos hk, upsertTempoList_ts_eq t ht hk]
    · rw [if_neg hk]
  rw [List.map_congr_left hfix]
  exact List.map_id' (upsertTempoList l row)

/-- After the upsert, the upserted hour bucket holds exactly one row
(assuming the primary key held before). -/
theorem upsertTempoList_count_one {l : List TempoRow} (row : TempoRow)
    (h : (l.map TempoRow.ts).Nodup) :
    ((upsertTempoList l row).filter (fun t => decide (t.ts = row.ts))).length = 1 := by
  rw [length_filter_key TempoRow.ts (upsertTempoList l row) row.ts]
  have hnd := upsertTempoList_nodup row h
  have hle := List.nodup_iff_count_le_one.mp hnd row.ts
  have hpos : 0 < ((upsertTempoList l row).map TempoRow.ts).count row.ts :=
    List.count_pos_iff.mpr
      (List.mem_map.mpr ⟨row, mem_upsertTempoList_self l row, rfl⟩)
  omega

/-! ## Score bounds -/

/-- The composite score before rounding lies in the interval from 50 (the
flat baseline offset, reached when every sub-score is zero) to the cap of
100. -/
theorem compositeScore_bounds (f s n e : Nat) :
    50 ≤ compositeScore f s n e ∧ compositeScore f s n e ≤ 100 := by
  have h1 : (0 : ℚ) ≤ flightScore f := le_max_left 0 _
  have h2 : (0 : ℚ) ≤ shipScore s := le_max_left 0 _
  have h3 : (0 : ℚ) ≤ notamScore n := le_max_left 0 _
  have h4 : (0 : ℚ) ≤ exerciseScore e := le_max_left 0 _
  constructor
  · refine le_min (by norm_num) ?_
    have m1 : (0 : ℚ) ≤ flightScore f * 0.4 := by positivity
    have m2 : (0 : ℚ) ≤ shipScore s * 0.2 := by positivity
    have m3 : (0 : ℚ) ≤ notamScore n * 0.3 := by positivity
    have m4 : (0 : ℚ) ≤ exerciseScore e * 0.1 := by positivity
    linarith
  · exact min_le_left _ _

/-- Rounding to two decimals keeps a value between 50 and 100 between 50 and
100. -/
theorem toFixed2_bounds {q : ℚ} (h50 : 50 ≤ q) (h100 : q ≤ 100) :
    50 ≤ toFixed2 q ∧ toFixed2 q ≤ 100 := by
  unfold toFixed2
  rw [round_eq]
  have hlo : (5000 : Int) ≤ ⌊q * 100 + 1 / 2⌋ := Int.le_floor.mpr (by push_cast; linarith)
  have hhi : ⌊q * 100 + 1 / 2⌋ ≤ (10000 : Int) := by
    by_contra hc
    push_neg at hc
    have hc1 : (10001 : Int) ≤ ⌊q * 100 + 1 / 2⌋ := hc
    have hc2 : (10001 : ℚ) ≤ (⌊q * 100 + 1 / 2⌋ : ℚ) := by exact_mod_cast hc1
    have hc3 : (⌊q * 100 + 1 / 2⌋ : ℚ) ≤ q * 100 + 1 / 2 := Int.floor_le _
    linarith
  constructor
  · rw [le_div_iff₀ (by norm_num : (0 : ℚ) < 100)]
    have : (5000 : ℚ) ≤ (⌊q * 100 + 1 / 2⌋ : ℚ) := by exact_mod_cast hlo
    linarith
  · rw [div_le_iff₀ (by norm_num : (0 : ℚ) < 100)]
    have : (⌊q * 100 + 1 / 2⌋ : ℚ) ≤ (10000 : ℚ) := by exact_mod_cast hhi
    linarith

/-- C6 — Tempo score formula and bound: for all non-negative category counts,
each category sub-score equals max(0, (count − baseline) / baseline × 100)
for that category's fixed baseline (flights 50, ships 20, notices 10,
exercises 2), the composite score equals
min(100, 0.4·flightScore + 0.2·shipScore + 0.3·notamScore +
0.1·exerciseScore + 50), and the stored composite score (the value rounded
to the two decimals the NUMERIC(5,2) column keeps) always lies within
[0, 100]. -/
theorem tempo_score_formula_and_bounds (f s n e : Nat) :
    flightScore f = max 0 (((f : ℚ) - 50) / 50 * 100) ∧
    shipScore s = max 0 (((s : ℚ) - 20) / 20 * 100) ∧
    notamScore n = max 0 (((n : ℚ) - 10) / 10 * 100) ∧
    exerciseScore e = max 0 (((e : ℚ) - 2) / 2 * 100) ∧
    compositeScore f s n e =
      min 100
        (0.4 * flightScore f + 0.2 * shipScore s + 0.3 * notamScore n +
          0.1 * exerciseScore e + 50) ∧
    0 ≤ toFixed2 (compositeScore f s n e) ∧
    toFixed2 (compositeScore f s n e) ≤ 100 := by
  obtain ⟨hb1, hb2⟩ := compositeScore_bounds f s n e
  obtain ⟨ht1, ht2⟩ := toFixed2_bounds hb1 hb2
  refine ⟨rfl, rfl, rfl, rfl, ?_, by linarith, ht2⟩
  unfold compositeScore
  congr 1
  ring

/-- Hour-bucket uniqueness: the `tempo_scores` primary key. -/
def tempoKeysUnique (l : List TempoRow) : Prop := (l.map TempoRow.ts).Nodup

/-- C7 — Tempo scores are keyed by the truncated current hour: for every
hour bucket there is exactly one stored tempo-score row, and recomputing the
score for the same hour (with unchanged underlying counts) overwrites the
existing row with identical values rather than creating a second row. -/
theorem tempo_hourly_recompute_idempotent (db : DB) (now : Int)
    (h : tempoKeysUnique db.tempo_scores) :
    tempoKeysUnique (calculateTempo db now).tempo_scores ∧
    ((calculateTempo db now).tempo_scores.filter
      (fun t => decide (t.ts = Int.fdiv now 3600000 * 3600000))).length = 1 ∧
    calculateTempo (calculateTempo db now) now = calculateTempo db now := by
  refine ⟨upsertTempoList_nodup (tempoRowOf db now) h, ?_, ?_⟩
  · have hone := upsertTempoList_count_one (tempoRowOf db now) h
    exact hone
  · have hstep : calculateTempo (calculateTempo db now) now =
        { db with
            tempo_scores :=
              upsertTempoList
                (upsertTempoList db.tempo_scores (tempoRowOf db now))
                (tempoRowOf db now) } := rfl
    rw [hstep, upsertTempoList_idem]
    rfl

/-- Witness for C7 at a concrete input: one flight event in the last hour,
an empty `tempo_scores` table, computed at `now` = 7200001 ms. -/
theorem tempo_hourly_recompute_idempotent_witness :
    tempoKeysUnique
      (DB.mk [] 0 [{ asset_id := 0, ts := 7000000, lat := 51, lon := -1, alt := none,
                     velocity := none, heading := none, vertical_rate := none,
                     on_ground := false }] [] [] [] []).tempo_scores ∧
    (tempoKeysUnique (calculateTempo
        (DB.mk [] 0 [{ asset_id := 0, ts := 7000000, lat := 51, lon := -1, alt := none,
                       velocity := none, heading := none, vertical_rate := none,
                       on_ground := false }] [] [] [] []) 7200001).tempo_scores ∧
      ((calculateTempo
        (DB.mk [] 0 [{ asset_id := 0, ts := 7000000, lat := 51, lon := -1, alt := none,
                       velocity := none, heading := none, vertical_rate := none,
                       on_ground := false }] [] [] [] []) 7200001).tempo_scores.filter
        (fun t => decide (t.ts = Int.fdiv 7200001 3600000 * 3600000))).length = 1 ∧
      calculateTempo (calculateTempo
        (DB.mk [] 0 [{ asset_id := 0, ts := 7000000, lat := 51, lon := -1, alt := none,
                       velocity := none, heading := none, vertical_rate := none,
                       on_ground := false }] [] [] [] []) 7200001) 7200001 =
        calculateTempo
        (DB.mk [] 0 [{ asset_id := 0, ts := 7000000, lat := 51, lon := -1, alt := none,
                       velocity := none, heading := none, vertical_rate := none,
                       on_ground := false }] [] [] [] []) 7200001) :=
  ⟨by simp [tempoKeysUnique],
   tempo_hourly_recompute_idempotent _ 7200001 (by simp [tempoKeysUnique])⟩

/-! ## Concrete fixtures used by witnesses and counterexamples -/

/-- An empty durable store. -/
def emptyDB : DB :=
  { assets := [], nextAssetId := 0, flight_events := [], ship_events := [],
    notams := [], exercises := [], tempo_scores := [] }

/-- A freshly constructed, idle service instance. -/
def idleService : ServiceState :=
  { isRunning := false, lastRun := none, accessToken := none, tokenExpiry := none,
    db := emptyDB }

/-- A service instance with a cycle in flight. -/
def runningService : ServiceState := { idleService with isRunning := true }

/-- C8 — Single-flight ingestion guard: a cycle trigger that arrives while a
cycle is already running is a no-op (it returns immediately without fetching
or processing), and the running flag is cleared on every exit path of a
cycle — including when the fetch raises an error — so after any completed
call the system is back in the Idle state and never permanently blocked. -/
theorem single_flight_guard (svc : ServiceState) (resp : UpstreamResponse) (now : Int) :
    (svc.isRunning = true → ingestData svc resp now = svc) ∧
    (svc.isRunning = false → (ingestData svc resp now).isRunning = false) := by
  constructor
  · intro h
    unfold ingestData
    rw [if_pos h]
  · intro h
    unfold ingestData
    rw [if_neg (by simp [h])]
    rcases hf : (fetchStates { svc with isRunning := true } resp).1 with err | states <;>
      simp [hf]

/-- Witness for C8: an overlapping trigger on a running instance is a no-op,
and an idle instance ends idle even when the fetch fails. -/
theorem single_flight_guard_witness :
    (runningService.isRunning = true ∧
      ingestData runningService (.success none) 0 = runningService) ∧
    (idleService.isRunning = false ∧
      (ingestData idleService (.httpError 500) 0).isRunning = false) :=
  ⟨⟨rfl, (single_flight_guard runningService (.success none) 0).1 rfl⟩,
   ⟨rfl, (single_flight_guard idleService (.httpError 500) 0).2 rfl⟩⟩

/-- C3 counterexample — the claim says that on a 429 (rate-limited) upstream
response the feed fetch returns an empty sequence of records rather than an
error; in the code `fetchStates` logs the rate-limit warning and then
re-throws the error, so it does not return an empty sequence. -/
theorem rate_limited_fetch_counterexample :
    (fetchStates runningService (.httpError 429)).1 = .error (.http 429) ∧
    (fetchStates runningService (.httpError 429)).1 ≠ .ok ([] : List RawState) := by
  refine ⟨rfl, ?_⟩
  intro h
  rw [show (fetchStates runningService (.httpError 429)).1 = .error (.http 429) from rfl] at h
  exact Except.noConfusion h

/-- C3 amended — On a 429 (rate-limited) upstream response, `fetchStates`
logs a rate-limit warning and throws; `ingestData` catches the error, so the
ingestion cycle ends early with zero records processed, the store and the
last-successful-run time unchanged, and the running flag cleared — the
process does not crash, but the fetch reports an error rather than an empty
sequence, and the cycle takes the failure path. -/
theorem rate_limited_cycle_no_records (svc : ServiceState) (now : Int)
    (h : svc.isRunning = false) :
    (fetchStates { svc with isRunning := true } (.httpError 429)).1 =
      .error (.http 429) ∧
    (ingestData svc (.httpError 429) now).db = svc.db ∧
    (ingestData svc (.httpError 429) now).lastRun = svc.lastRun ∧
    (ingestData svc (.httpError 429) now).isRunning = false := by
  have hrun : ingestData svc (.httpError 429) now =
      { svc with isRunning := false } := by
    unfold ingestData
    rw [if_neg (by simp [h])]
    rfl
  exact ⟨rfl, by rw [hrun], by rw [hrun], by rw [hrun]⟩

/-- Witness for the amended C3 at a concrete idle service. -/
theorem rate_limited_cycle_no_records_witness :
    idleService.isRunning = false ∧
    ((fetchStates { idleService with isRunning := true } (.httpError 429)).1 =
        .error (.http 429) ∧
      (ingestData idleService (.httpError 429) 0).db = idleService.db ∧
      (ingestData idleService (.httpError 429) 0).lastRun = idleService.lastRun ∧
      (ingestData idleService (.httpError 429) 0).isRunning = false) :=
  ⟨rfl, rate_limited_cycle_no_records idleService 0 rfl⟩

/-- C10 — Implicit edge case: 'missing' identifier/latitude/longitude is
decided by JavaScript truthiness, so every raw record whose latitude or
longitude field is exactly 0 (a well-formed coordinate value) or whose
identifier is the empty string is skipped before classification, and nothing
is persisted for it. -/
theorem truthiness_skips_zero_coordinates (now : Int) (db : DB) (st : RawState)
    (h : st.latitude = JSVal.num 0 ∨ st.longitude = JSVal.num 0 ∨ st.icao24 = some "") :
    processState now db st = (db, .skippedNoPosition) := by
  have hfalse : (st.latitude.truthy && st.longitude.truthy && strTruthy st.icao24) = false := by
    rcases h with h | h | h <;> simp [h, JSVal.truthy, strTruthy]
  unfold processState
  rw [if_pos hfalse]

/-- Witness for C10: a record at latitude exactly 0 with a military
identifier and a fresh timestamp is still skipped, with the store
untouched. -/
theorem truthiness_skips_zero_coordinates_witness :
    (({ icao24 := some "43C001", lastContact := some 1000, longitude := JSVal.num 1,
        latitude := JSVal.num 0 } : RawState).latitude = JSVal.num 0 ∨
      ({ icao24 := some "43C001", lastContact := some 1000, longitude := JSVal.num 1,
         latitude := JSVal.num 0 } : RawState).longitude = JSVal.num 0 ∨
      ({ icao24 := some "43C001", lastContact := some 1000, longitude := JSVal.num 1,
         latitude := JSVal.num 0 } : RawState).icao24 = some "") ∧
    processState 1000000 emptyDB
        { icao24 := some "43C001", lastContact := some 1000, longitude := JSVal.num 1,
          latitude := JSVal.num 0 } =
      (emptyDB, .skippedNoPosition) :=
  ⟨Or.inl rfl,
   truthiness_skips_zero_coordinates 1000000 emptyDB
     { icao24 := some "43C001", lastContact := some 1000, longitude := JSVal.num 1,
       latitude := JSVal.num 0 } (Or.inl rfl)⟩

/-- C4 — Last-contact freshness window: for every raw record with
identifier, latitude and longitude present, the record is rejected if its
last-contact time is missing, non-positive, more than 1 minute after
ingestion wall-clock time, or more than 24 hours before it (the store is
left untouched); and it is not rejected on the time check when the
last-contact time lies within that window.  The time checks run after the
classifier, so the rejection outcomes are stated for records that pass it. -/
theorem freshness_window (now : Int) (db : DB) (st : RawState)
    (hpresent : (st.latitude.truthy && st.longitude.truthy && strTruthy st.icao24) = true) :
    (lastContactInvalid st.lastContact = true ↔
      (st.lastContact = none ∨ ∃ lc, st.lastContact = some lc ∧ lc ≤ 0)) ∧
    (∀ lc : Int, timestampUnreasonable (lc * 1000) now = true ↔
      (lc * 1000 > now + 60000 ∨ lc * 1000 < now - 86400000)) ∧
    (isMilitaryAircraft st.icao24 st.callsign = true →
      (lastContactInvalid st.lastContact = true →
        processState now db st = (db, .rejectedBadTimestamp)) ∧
      (∀ lc : Int, st.lastContact = some lc → ¬ lc ≤ 0 →
        timestampUnreasonable (lc * 1000) now = true →
        processState now db st = (db, .rejectedUnreasonableTimestamp)) ∧
      (∀ lc : Int, st.lastContact = some lc → ¬ lc ≤ 0 →
        timestampUnreasonable (lc * 1000) now = false →
        (processState now db st).2 ≠ .rejectedBadTimestamp ∧
        (processState now db st).2 ≠ .rejectedUnreasonableTimestamp)) := by
  refine ⟨?_, ?_, ?_⟩
  · cases hlc : st.lastContact with
    | none => simp [lastContactInvalid]
    | some lc => simp [lastContactInvalid]
  · intro lc
    simp [timestampUnreasonable]
  · intro hmil
    have hp : ¬ (st.latitude.truthy && st.longitude.truthy && strTruthy st.icao24) = false := by
      simp [hpresent]
    have hm : ¬ isMilitaryAircraft st.icao24 st.callsign = false := by
      simp [hmil]
    refine ⟨?_, ?_, ?_⟩
    · intro hinv
      unfold processState
      rw [if_neg hp, if_neg hm]
      simp only [hinv, if_pos]
    · intro lc hlc hpos hunr
      unfold processState
      rw [if_neg hp, if_neg hm]
      simp [hlc, lastContactInvalid, hpos, hunr]
    · intro lc hlc hpos hok
      unfold processState
      rw [if_neg hp, if_neg hm]
      simp only [hlc, lastContactInvalid, Option.getD_some]
      rw [if_neg (by simp [hpos]), if_neg (by simp [hok])]
      rcases hsla : safeFloat st.latitude with _ | la <;>
        rcases hslo : safeFloat st.longitude with _ | lo <;> simp [hsla, hslo]

/-- A military-pattern record with position fix and last-contact time 1000 s
(used by several witnesses). -/
def stFresh : RawState :=
  { icao24 := some "43C001", lastContact := some 1000, longitude := JSVal.num 1,
    latitude := JSVal.num 51 }

/-- Witness for C4: the record is rejected (store untouched) when its
last-contact time is 25 hours old, and not rejected on the time check when
it is 5 seconds old. -/
theorem freshness_window_witness :
    (stFresh.latitude.truthy && stFresh.longitude.truthy && strTruthy stFresh.icao24) = true ∧
    isMilitaryAircraft stFresh.icao24 stFresh.callsign = true ∧
    timestampUnreasonable (1000 * 1000) 91000000 = true ∧
    processState 91000000 emptyDB stFresh = (emptyDB, .rejectedUnreasonableTimestamp) ∧
    timestampUnreasonable (1000 * 1000) 1005000 = false ∧
    (processState 1005000 emptyDB stFresh).2 ≠ .rejectedBadTimestamp ∧
    (processState 1005000 emptyDB stFresh).2 ≠ .rejectedUnreasonableTimestamp := by
  refine ⟨by decide, by decide, by decide, ?_, by decide, ?_, ?_⟩
  · exact ((freshness_window 91000000 emptyDB stFresh (by decide)).2.2
      (by decide)).2.1 1000 rfl (by decide) (by decide)
  · exact (((freshness_window 1005000 emptyDB stFresh (by decide)).2.2
      (by decide)).2.2 1000 rfl (by decide) (by decide)).1
  · exact (((freshness_window 1005000 emptyDB stFresh (by decide)).2.2
      (by decide)).2.2 1000 rfl (by decide) (by decide)).2

/-! ## Asset resolution -/

/-- Code uniqueness: the `assets.code UNIQUE` constraint. -/
def assetCodesUnique (l : List Asset) : Prop := (l.map Asset.code).Nodup

/-- C9 amended — Asset resolution frame: however many times resolution is
invoked for the same external code (case-normalized), at most one Asset row
exists for that code; every invocation on an existing Asset that supplies a
callsign that is non-empty and non-blank after trimming updates the stored
callsign (to the trimmed value) and the update timestamp, and no invocation
after creation ever changes the Asset's country code or code. -/
theorem asset_resolution_frame (now : Int) (db : DB) (code : String)
    (cs cc : Option String) (h : assetCodesUnique db.assets) :
    assetCodesUnique (resolveAsset now db code cs cc).1.assets ∧
    ((resolveAsset now db code cs cc).1.assets.filter
      (fun a => decide (a.code = code))).length = 1 ∧
    (∀ c, cs = some c → c ≠ "" → jsTrim c ≠ "" →
      (∃ a ∈ db.assets, a.code = code) →
      ∀ b ∈ (resolveAsset now db code cs cc).1.assets, b.code = code →
        b.callsign = some (jsTrim c) ∧ b.updated_at = now) ∧
    (∀ a ∈ db.assets, ∃ b ∈ (resolveAsset now db code cs cc).1.assets,
      b.id = a.id ∧ b.code = a.code ∧ b.country_code = a.country_code ∧
      b.created_at = a.created_at) := by
  rcases hf : db.assets.find? (fun a => a.code == code) with _ | a
  all_goals unfold resolveAsset
  · -- no asset with this code yet: INSERT
    rw [hf]
    have habsent : code ∉ db.assets.map Asset.code := by
      intro hmem
      obtain ⟨x, hx, hxc⟩ := List.mem_map.mp hmem
      have := List.find?_eq_none.mp hf x hx
      simp [hxc] at this
    refine ⟨?_, ?_, ?_, ?_⟩
    · unfold assetCodesUnique
      rw [List.map_append, List.nodup_append]
      exact ⟨h, by simp, by
        intro x hx hmem
        simp only [List.map_cons, List.map_nil, List.mem_singleton] at hmem
        exact habsent (hmem ▸ hx)⟩
    · rw [List.filter_append]
      have hnilf : db.assets.filter (fun a => decide (a.code = code)) = [] := by
        rw [List.filter_eq_nil_iff]
        intro x hx
        simp only [decide_eq_true_eq]
        intro hxc
        exact habsent (List.mem_map.mpr ⟨x, hx, hxc⟩)
      rw [hnilf]
      simp
    · intro c hc hc1 hc2 hex
      exfalso
      obtain ⟨a0, ha0, ha0c⟩ := hex
      exact habsent (List.mem_map.mpr ⟨a0, ha0, ha0c⟩)
    · intro a0 ha0
      exact ⟨a0, List.mem_append_left _ ha0, rfl, rfl, rfl, rfl⟩
  · -- asset found: possibly UPDATE the callsign
    rw [hf]
    have hac : a.code = code := by
      have := List.find?_some hf
      simpa using this
    have hamem : a ∈ db.assets := List.mem_of_find?_eq_some hf
    have hcount : ∀ l : List Asset, (l.map Asset.code).Nodup → a ∈ l → a.code = code →
        (∀ b ∈ l, ∀ b2 ∈ l, b.code = b2.code → b = b2) →
        (l.filter (fun x => decide (x.code = code))).length = 1 := by
      intro l hnd hmem hcode _
      rw [length_filter_key Asset.code l code]
      have hle := List.nodup_iff_count_le_one.mp hnd code
      have hpos : 0 < (l.map Asset.code).count code :=
        List.count_pos_iff.mpr (List.mem_map.mpr ⟨a, hmem, hcode⟩)
      omega
    rcases cs with _ | c
    · -- no callsign supplied: no write at all
      dsimp only
      refine ⟨h, ?_, by intro c hc; exact absurd hc (by simp), ?_⟩
      · exact hcount db.assets h hamem hac
          (fun b hb b2 hb2 he => List.inj_on_of_nodup_map h hb hb2 he)
      · intro a0 ha0
        exact ⟨a0, ha0, rfl, rfl, rfl, rfl⟩
    dsimp only
    by_cases hguard : c ≠ "" ∧ jsTrim c ≠ ""
    · -- truthy, non-blank callsign: UPDATE callsign and updated_at
      rw [if_pos hguard]
      have hfcode : ∀ b : Asset,
          ((fun b => if b.id = a.id then
            { b with callsign := some (jsTrim c), updated_at := now } else b) b).code =
            b.code := by
        intro b
        by_cases hb : b.id = a.id <;> simp [hb]
      have hmapcode :
          ((db.assets.map (fun b => if b.id = a.id then
            { b with callsign := some (jsTrim c), updated_at := now } else b)).map
              Asset.code) = db.assets.map Asset.code := by
        rw [List.map_map]
        exact List.map_congr_left (fun b _ => hfcode b)
      refine ⟨?_, ?_, ?_, ?_⟩
      · unfold assetCodesUnique
        rw [hmapcode]
        exact h
      · rw [List.filter_map, List.length_map]
        have hpf : ((fun x => decide (x.code = code)) ∘
            (fun b => if b.id = a.id then
              { b with callsign := some (jsTrim c), updated_at := now } else b)) =
            (fun x : Asset => decide (x.code = code)) := by
          funext b
          simp only [Function.comp_apply, hfcode b]
        rw [hpf]
        exact hcount db.assets h hamem hac
          (fun b hb b2 hb2 he => List.inj_on_of_nodup_map h hb hb2 he)
      · intro c2 hc2 hne1 hne2 hex
        intro b hb hbc
        obtain ⟨a0, ha0, hfa0⟩ := List.mem_map.mp hb
        cases Option.some.inj hc2
        have ha0c : a0.code = code := by
          rw [← hbc, ← hfa0]
          exact (hfcode a0).symm
        have ha0a : a0 = a := List.inj_on_of_nodup_map h ha0 hamem (ha0c.trans hac.symm)
        subst ha0a
        rw [← hfa0, if_pos rfl]
        exact ⟨rfl, rfl⟩
      · intro a0 ha0
        refine ⟨(fun b => if b.id = a.id then
            { b with callsign := some (jsTrim c), updated_at := now } else b) a0,
          List.mem_map.mpr ⟨a0, ha0, rfl⟩, ?_⟩
        by_cases hb : a0.id = a.id <;> simp [hb]
    · -- blank or empty callsign: no write
      rw [if_neg hguard]
      refine ⟨h, ?_, ?_, ?_⟩
      · exact hcount db.assets h hamem hac
          (fun b hb b2 hb2 he => List.inj_on_of_nodup_map h hb hb2 he)
      · intro c2 hc2 hne1 hne2
        exfalso
        cases Option.some.inj hc2
        exact hguard ⟨hne1, hne2⟩
      · intro a0 ha0
        exact ⟨a0, ha0, rfl, rfl, rfl, rfl⟩

/-- A store holding one asset with code 43C001, callsign OLD, updated at time
0 (fixture for the resolution theorems). -/
def staleAssetDB : DB :=
  { emptyDB with
    assets := [{ id := 0, type := "aircraft", code := "43C001", callsign := some "OLD",
                 country_code := some "GB", created_at := 0, updated_at := 0 }],
    nextAssetId := 1 }

/-- C9 counterexample — the claim says every invocation on an existing Asset
that supplies a non-empty callsign updates the stored callsign and the
update timestamp; a whitespace-only callsign is non-empty, yet the guard
`callsign && callsign.trim()` skips the update, so the stored callsign and
update timestamp are left unchanged. -/
theorem whitespace_callsign_counterexample :
    (" " : String) ≠ "" ∧
    (∃ a ∈ staleAssetDB.assets, a.code = "43C001") ∧
    (resolveAsset 99 staleAssetDB "43C001" (some " ") (some "GB")).1 = staleAssetDB ∧
    ∀ b ∈ (resolveAsset 99 staleAssetDB "43C001" (some " ") (some "GB")).1.assets,
      b.callsign = some "OLD" ∧ b.updated_at = 0 := by
  refine ⟨by decide, ⟨_, List.mem_singleton.mpr rfl, rfl⟩, by decide, by decide⟩

/-- Witness for the amended C9: resolving code 43C001 against a store that
already holds it, supplying callsign `"RRR01 "`, keeps exactly one row for
the code and updates its callsign to the trimmed value. -/
theorem asset_resolution_frame_witness :
    assetCodesUnique staleAssetDB.assets ∧
    (assetCodesUnique (resolveAsset 99 staleAssetDB "43C001" (some "RRR01 ")
        (some "GB")).1.assets ∧
      ((resolveAsset 99 staleAssetDB "43C001" (some "RRR01 ") (some "GB")).1.assets.filter
        (fun a => decide (a.code = "43C001"))).length = 1 ∧
      (∀ c, (some "RRR01 " : Option String) = some c → c ≠ "" → jsTrim c ≠ "" →
        (∃ a ∈ staleAssetDB.assets, a.code = "43C001") →
        ∀ b ∈ (resolveAsset 99 staleAssetDB "43C001" (some "RRR01 ")
            (some "GB")).1.assets, b.code = "43C001" →
          b.callsign = some (jsTrim c) ∧ b.updated_at = 99) ∧
      (∀ a ∈ staleAssetDB.assets,
        ∃ b ∈ (resolveAsset 99 staleAssetDB "43C001" (some "RRR01 ")
            (some "GB")).1.assets,
          b.id = a.id ∧ b.code = a.code ∧ b.country_code = a.country_code ∧
          b.created_at = a.created_at)) :=
  ⟨by unfold assetCodesUnique; decide,
   asset_resolution_frame 99 staleAssetDB "43C001" (some "RRR01 ") (some "GB")
     (by unfold assetCodesUnique; decide)⟩

/-! ## Per-record processing lemmas -/

/-- A record whose transaction did not commit leaves the store untouched
(skips and rejects roll back, and a failed insert is rolled back). -/
theorem processState_fst_of_ne {now : Int} {db : DB} {st : RawState}
    (h : (processState now db st).2 ≠ .processed) : (processState now db st).1 = db := by
  unfold processState at h ⊢
  by_cases h1 : (st.latitude.truthy && st.longitude.truthy && strTruthy st.icao24) = false
  · rw [if_pos h1]
  rw [if_neg h1] at h ⊢
  by_cases h2 : isMilitaryAircraft st.icao24 st.callsign = false
  · rw [if_pos h2]
  rw [if_neg h2] at h ⊢
  dsimp only at h ⊢
  by_cases h3 : lastContactInvalid st.lastContact = true
  · rw [if_pos h3]
  rw [if_neg h3] at h ⊢
  by_cases h4 : timestampUnreasonable (st.lastContact.getD 0 * 1000) now = true
  · rw [if_pos h4]
  rw [if_neg h4] at h ⊢
  rcases hla : safeFloat st.latitude with _ | la
  · simp [hla] at h ⊢
  rcases hlo : safeFloat st.longitude with _ | lo
  · simp [hla, hlo] at h ⊢
  · simp [hla, hlo] at h

/-- Asset resolution only touches the `assets` table (and the id counter). -/
theorem resolveAsset_flight_events (now : Int) (db : DB) (code : String)
    (cs cc : Option String) :
    (resolveAsset now db code cs cc).1.flight_events = db.flight_events := by
  unfold resolveAsset
  rcases hf : db.assets.find? (fun a => a.code == code) with _ | a <;> rw [hf]
  rcases cs with _ | c
  · rfl
  dsimp only
  by_cases hg : c ≠ "" ∧ jsTrim c ≠ ""
  · rw [if_pos hg]
  · rw [if_neg hg]

/-- When the lookup finds an asset, resolution returns that asset's id
whatever the callsign does. -/
theorem resolveAsset_snd_of_find (now2 : Int) (db2 : DB) (code : String)
    (cs2 cc2 : Option String) {a : Asset}
    (hfind : db2.assets.find? (fun b => b.code == code) = some a) :
    (resolveAsset now2 db2 code cs2 cc2).2 = a.id := by
  unfold resolveAsset
  rw [hfind]
  rcases cs2 with _ | c
  · rfl
  dsimp only
  by_cases hg : c ≠ "" ∧ jsTrim c ≠ ""
  · rw [if_pos hg]
  · rw [if_neg hg]

/-- After resolution, looking the code up again finds an asset carrying the
id that resolution returned. -/
theorem find?_resolveAsset (now : Int) (db : DB) (code : String) (cs cc : Option String) :
    ∃ a : Asset,
      (resolveAsset now db code cs cc).1.assets.find? (fun b => b.code == code) = some a ∧
      a.id = (resolveAsset now db code cs cc).2 := by
  unfold resolveAsset
  rcases hf : db.assets.find? (fun b => b.code == code) with _ | a <;> rw [hf]
  · dsimp only
    refine ⟨Asset.mk db.nextAssetId "aircraft" code
      (match cs with
        | some c => if jsTrim c = "" then none else some (jsTrim c)
        | none => none)
      cc now now, ?_, rfl⟩
    rw [List.find?_append, hf]
    simp [List.find?_cons]
  · dsimp only
    rcases cs with _ | c
    · exact ⟨a, hf, rfl⟩
    dsimp only
    by_cases hg : c ≠ "" ∧ jsTrim c ≠ ""
    · rw [if_pos hg]
      dsimp only
      rw [List.find?_map]
      have hpf : ((fun b : Asset => b.code == code) ∘
          (fun b => if b.id = a.id then
            { b with callsign := some (jsTrim c), updated_at := now } else b)) =
          (fun b : Asset => b.code == code) := by
        funext b
        by_cases hb : b.id = a.id <;> simp [hb]
      rw [hpf, hf]
      refine ⟨_, rfl, ?_⟩
      by_cases hb : a.id = a.id <;> simp [hb]
    · rw [if_neg hg]
      exact ⟨a, hf, rfl⟩

/-- Helper: a boolean that is not false is true. -/
theorem bool_eq_true_of_not_false {b : Bool} (h : ¬ b = false) : b = true := by
  cases b
  · exact absurd rfl h
  · rfl

/-- Helper: a boolean that is not true is false. -/
theorem bool_eq_false_of_not_true {b : Bool} (h : ¬ b = true) : b = false := by
  cases b
  · rfl
  · exact absurd rfl h

/-- When every guard passes, one record's transaction commits: the asset
resolution and the event upsert take effect and the outcome is
`processed`. -/
theorem processState_processed_of_conditions (now : Int) (db : DB) (st : RawState)
    (h1 : (st.latitude.truthy && st.longitude.truthy && strTruthy st.icao24) = true)
    (h2 : isMilitaryAircraft st.icao24 st.callsign = true)
    (h3 : lastContactInvalid st.lastContact = false)
    (h4 : timestampUnreasonable (st.lastContact.getD 0 * 1000) now = false)
    (la lo : ℚ) (hla : safeFloat st.latitude = some la)
    (hlo : safeFloat st.longitude = some lo) :
    processState now db st =
      ({ (resolveAsset now db (jsToUpperCase (st.icao24.getD "")) st.callsign
            (getCountryCode st.originCountry)).1 with
          flight_events :=
            upsertEvList
              (resolveAsset now db (jsToUpperCase (st.icao24.getD "")) st.callsign
                (getCountryCode st.originCountry)).1.flight_events
              (FlightEvent.mk
                (resolveAsset now db (jsToUpperCase (st.icao24.getD "")) st.callsign
                  (getCountryCode st.originCountry)).2
                (st.lastContact.getD 0 * 1000) la lo (safeInteger st.baroAltitude)
                (safeFloat st.velocity) (safeFloat st.trueTrack)
                (safeFloat st.verticalRate) (st.onGround.getD false)) },
        .processed) := by
  unfold processState
  rw [if_neg (by simp [h1]), if_neg (by simp [h2])]
  dsimp only
  rw [if_neg (by simp [h3]), if_neg (by simp [h4]), hla, hlo]

/-- A committed record satisfies every guard and rewrites the store by the
resolution followed by the upsert. -/
theorem processState_processed_eq {now : Int} {db : DB} {st : RawState}
    (h : (processState now db st).2 = .processed) :
    ∃ la lo : ℚ, safeFloat st.latitude = some la ∧ safeFloat st.longitude = some lo ∧
      (st.latitude.truthy && st.longitude.truthy && strTruthy st.icao24) = true ∧
      isMilitaryAircraft st.icao24 st.callsign = true ∧
      lastContactInvalid st.lastContact = false ∧
      timestampUnreasonable (st.lastContact.getD 0 * 1000) now = false := by
  unfold processState at h
  by_cases h1 : (st.latitude.truthy && st.longitude.truthy && strTruthy st.icao24) = false
  · rw [if_pos h1] at h
    exact absurd h (by simp)
  rw [if_neg h1] at h
  by_cases h2 : isMilitaryAircraft st.icao24 st.callsign = false
  · rw [if_pos h2] at h
    exact absurd h (by simp)
  rw [if_neg h2] at h
  dsimp only at h
  by_cases h3 : lastContactInvalid st.lastContact = true
  · rw [if_pos h3] at h
    exact absurd h (by simp)
  rw [if_neg h3] at h
  by_cases h4 : timestampUnreasonable (st.lastContact.getD 0 * 1000) now = true
  · rw [if_pos h4] at h
    exact absurd h (by simp)
  rw [if_neg h4] at h
  rcases hla : safeFloat st.latitude with _ | la
  · rw [hla] at h
    rcases hlo : safeFloat st.longitude with _ | lo <;> rw [hlo] at h <;> simp at h
  rcases hlo : safeFloat st.longitude with _ | lo
  · rw [hla, hlo] at h
    simp at h
  exact ⟨la, lo, rfl, rfl, bool_eq_true_of_not_false h1, bool_eq_true_of_not_false h2,
    bool_eq_false_of_not_true h3, bool_eq_false_of_not_true h4⟩

/-- Per-record processing preserves the uniqueness of (asset, timestamp)
keys over `flight_events`. -/
theorem processState_keys_nodup (now : Int) (db : DB) (st : RawState)
    (h : (db.flight_events.map eventKey).Nodup) :
    ((processState now db st).1.flight_events.map eventKey).Nodup := by
  by_cases hp : (processState now db st).2 = .processed
  · obtain ⟨la, lo, hla, hlo, h1, h2, h3, h4⟩ := processState_processed_eq hp
    rw [processState_processed_of_conditions now db st h1 h2 h3 h4 la lo hla hlo]
    dsimp only
    rw [resolveAsset_flight_events]
    exact upsertEvList_nodup _ h
  · rw [processState_fst_of_ne hp]
    exact h

/-- Re-processing the same record against the store it just produced leaves
`flight_events` unchanged: the asset is found again (same id), the same
(asset, timestamp) key is computed, and the upsert overwrites the row with
identical values. -/
theorem processState_twice (now : Int) (db : DB) (st : RawState) :
    (processState now (processState now db st).1 st).1.flight_events =
      (processState now db st).1.flight_events := by
  by_cases hp : (processState now db st).2 = .processed
  case neg =>
    rw [processState_fst_of_ne hp]
    rw [processState_fst_of_ne hp]
  case pos =>
    obtain ⟨la, lo, hla, hlo, h1, h2, h3, h4⟩ := processState_processed_eq hp
    have heq := processState_processed_of_conditions now db st h1 h2 h3 h4 la lo hla hlo
    obtain ⟨a, hfind, hid⟩ :=
      find?_resolveAsset now db (jsToUpperCase (st.icao24.getD "")) st.callsign
        (getCountryCode st.originCountry)
    generalize hR : resolveAsset now db (jsToUpperCase (st.icao24.getD "")) st.callsign
      (getCountryCode st.originCountry) = R at heq hfind hid
    rw [heq]
    dsimp only
    rw [processState_processed_of_conditions now _ st h1 h2 h3 h4 la lo hla hlo]
    dsimp only
    rw [resolveAsset_flight_events]
    have hsnd :
        (resolveAsset now
          ({ R.1 with
              flight_events :=
                upsertEvList R.1.flight_events
                  (FlightEvent.mk R.2 (st.lastContact.getD 0 * 1000) la lo
                    (safeInteger st.baroAltitude) (safeFloat st.velocity)
                    (safeFloat st.trueTrack) (safeFloat st.verticalRate)
                    (st.onGround.getD false)) })
          (jsToUpperCase (st.icao24.getD "")) st.callsign
          (getCountryCode st.originCountry)).2 = R.2 := by
      have hfind2 :
          ({ R.1 with
              flight_events :=
                upsertEvList R.1.flight_events
                  (FlightEvent.mk R.2 (st.lastContact.getD 0 * 1000) la lo
                    (safeInteger st.baroAltitude) (safeFloat st.velocity)
                    (safeFloat st.trueTrack) (safeFloat st.verticalRate)
                    (st.onGround.getD false)) } : DB).assets.find?
            (fun b => b.code == jsToUpperCase (st.icao24.getD "")) = some a := hfind
      rw [resolveAsset_snd_of_find now _ (jsToUpperCase (st.icao24.getD "")) st.callsign
        (getCountryCode st.originCountry) hfind2]
      exact hid
    rw [hsnd]
    exact upsertEvList_idem _ _

/-! ## Batch processing lemmas -/

/-- One loop iteration: the store of the batch result is the store of the
remaining batch run from the record's post-transaction store. -/
theorem processStates_cons_db (now : Int) (db : DB) (st : RawState) (rest : List RawState) :
    (processStates now db (st :: rest)).db =
      (processStates now (processState now db st).1 rest).db := rfl

/-- One loop iteration, for the success counter. -/
theorem processStates_cons_processed (now : Int) (db : DB) (st : RawState)
    (rest : List RawState) :
    (processStates now db (st :: rest)).processed =
      (if (processState now db st).2 = .processed then 1 else 0) +
        (processStates now (processState now db st).1 rest).processed := rfl

/-- Splitting a batch: the store after `xs ++ ys` is the store after `ys`
run from the store after `xs`. -/
theorem processStates_db_append (now : Int) (db : DB) (xs ys : List RawState) :
    (processStates now db (xs ++ ys)).db =
      (processStates now (processStates now db xs).db ys).db := by
  induction xs generalizing db with
  | nil => rfl
  | cons st rest ih =>
    rw [List.cons_append, processStates_cons_db, ih, processStates_cons_db]

/-- Splitting a batch: success counters add. -/
theorem processStates_processed_append (now : Int) (db : DB) (xs ys : List RawState) :
    (processStates now db (xs ++ ys)).processed =
      (processStates now db xs).processed +
        (processStates now (processStates now db xs).db ys).processed := by
  induction xs generalizing db with
  | nil =>
    show (processStates now db ys).processed = 0 + (processStates now db ys).processed
    rw [Nat.zero_add]
  | cons st rest ih =>
    rw [List.cons_append, processStates_cons_processed, processStates_cons_processed,
      ih, processStates_cons_db]
    omega

/-- Key uniqueness: the `UNIQUE (asset_id, ts)` constraint on
`flight_events`. -/
def eventKeysUnique (l : List FlightEvent) : Prop := (l.map eventKey).Nodup

/-- C1 — Position-event ingestion is an idempotent upsert keyed on
(asset, observation timestamp): for every asset and timestamp, processing
the same raw record (or an identical snapshot) twice in succession yields
exactly one stored position-event row for that pair — key uniqueness is
preserved and the second pass leaves `flight_events` unchanged — and a key
collision overwrites every kinematic field (lat, lon, alt, velocity,
heading, vertical_rate, on_ground) with the new values rather than creating
a duplicate row. -/
theorem position_event_upsert_idempotent (now : Int) (db : DB) (r : RawState)
    (h : eventKeysUnique db.flight_events) :
    eventKeysUnique (processStates now db [r]).db.flight_events ∧
    (processStates now db [r, r]).db.flight_events =
      (processStates now db [r]).db.flight_events ∧
    (∀ ev : FlightEvent, ev ∈ upsertEvList db.flight_events ev) ∧
    (∀ ev : FlightEvent, (∃ e ∈ db.flight_events, eventKey e = eventKey ev) →
      (upsertEvList db.flight_events ev).length = db.flight_events.length ∧
      ∀ e ∈ upsertEvList db.flight_events ev, eventKey e = eventKey ev → e = ev) := by
  refine ⟨?_, ?_, ?_, ?_⟩
  · show ((processState now db r).1.flight_events.map eventKey).Nodup
    exact processState_keys_nodup now db r h
  · show (processState now (processState now db r).1 r).1.flight_events =
      (processState now db r).1.flight_events
    exact processState_twice now db r
  · intro ev
    exact mem_upsertEvList_self _ _
  · intro ev hex
    exact ⟨upsertEvList_length_of_collision hex,
      fun e he hk => upsertEvList_key_eq e he hk⟩

/-- Witness for C1 at a concrete input: the military record `43C001` at
last-contact 1000 s ingested twice into an empty store at wall-clock
1000000 ms. -/
theorem position_event_upsert_idempotent_witness :
    eventKeysUnique emptyDB.flight_events ∧
    (eventKeysUnique (processStates 1000000 emptyDB [stFresh]).db.flight_events ∧
      (processStates 1000000 emptyDB [stFresh, stFresh]).db.flight_events =
        (processStates 1000000 emptyDB [stFresh]).db.flight_events ∧
      (∀ ev : FlightEvent, ev ∈ upsertEvList emptyDB.flight_events ev) ∧
      (∀ ev : FlightEvent,
        (∃ e ∈ emptyDB.flight_events, eventKey e = eventKey ev) →
        (upsertEvList emptyDB.flight_events ev).length = emptyDB.flight_events.length ∧
        ∀ e ∈ upsertEvList emptyDB.flight_events ev, eventKey e = eventKey ev → e = ev)) :=
  ⟨by unfold eventKeysUnique; decide,
   position_event_upsert_idempotent 1000000 emptyDB stFresh
     (by unfold eventKeysUnique; decide)⟩

/-- C2 — Per-record failure isolation: each raw record in a batch is
processed in its own transaction, and for every batch, a failure on one
record rolls back only that record's writes (the store is exactly the store
before the record) and does not prevent any of the other records in the
same batch from being processed and persisted: the batch with the failing
record produces the same store and the same success count as the batch
without it. -/
theorem per_record_failure_isolation (now : Int) (db : DB) (xs ys : List RawState)
    (bad : RawState)
    (hfail : (processState now (processStates now db xs).db bad).2 = .failed) :
    (processState now (processStates now db xs).db bad).1 =
      (processStates now db xs).db ∧
    (processStates now db (xs ++ bad :: ys)).db =
      (processStates now db (xs ++ ys)).db ∧
    (processStates now db (xs ++ bad :: ys)).processed =
      (processStates now db (xs ++ ys)).processed := by
  have hroll : (processState now (processStates now db xs).db bad).1 =
      (processStates now db xs).db :=
    processState_fst_of_ne (fun hc => by
      rw [hfail] at hc
      exact RecordOutcome.noConfusion hc)
  refine ⟨hroll, ?_, ?_⟩
  · rw [processStates_db_append, processStates_db_append, processStates_cons_db, hroll]
  · rw [processStates_processed_append, processStates_processed_append,
      processStates_cons_processed, hroll, hfail]
    simp

/-- A record whose latitude is the truthy but unparsable string "abc": it
passes the presence and classification guards, and its insert fails on the
NOT NULL latitude column, rolling the record back. -/
def stBad : RawState :=
  { icao24 := some "43C002", lastContact := some 1000, longitude := JSVal.num 1,
    latitude := JSVal.str "abc" }

/-- Witness for C2 at a concrete input: the malformed record between two
good ones neither blocks them nor changes what they persist. -/
theorem per_record_failure_isolation_witness :
    (processState 1000000 (processStates 1000000 emptyDB [stFresh]).db stBad).2 =
      .failed ∧
    ((processState 1000000 (processStates 1000000 emptyDB [stFresh]).db stBad).1 =
        (processStates 1000000 emptyDB [stFresh]).db ∧
      (processStates 1000000 emptyDB ([stFresh] ++ stBad :: [stFresh])).db =
        (processStates 1000000 emptyDB ([stFresh] ++ [stFresh])).db ∧
      (processStates 1000000 emptyDB ([stFresh] ++ stBad :: [stFresh])).processed =
        (processStates 1000000 emptyDB ([stFresh] ++ [stFresh])).processed) :=
  ⟨by decide,
   per_record_failure_isolation 1000000 emptyDB [stFresh] [stFresh] stBad (by decide)⟩
